import Mathlib

/-!
Shallow embedding of the DID-authentication and contract-signing core of the
contract-management system (Rust sources under
`src/contract-management-system/src`), together with theorems settling the
frozen claims about it.

Modelling conventions:
* `chrono::DateTime<Utc>` timestamps and `chrono::Duration` values are
  embedded as `Int` (a point on / length of the UTC timeline); every call to
  `Utc::now()` in the source becomes an explicit `now : Int` parameter.
* `Uuid` values are embedded as `String`.
* Rust `Result<T, E>` is `Except E T`; mutation of `&mut self` is embedded as
  a function returning the updated value.
* `HashMap` is an association list with first-match lookup and
  replace-on-insert, matching `HashMap::get` / `HashMap::insert` semantics.
* Third-party cryptographic primitives (sha256, ed25519-dalek) are opaque
  deterministic functions, passed as explicit parameters of the embedding.
-/

namespace CMS

/-- Role of a party in the contract (`models/contract.rs`, `PartyRole`). -/
inductive PartyRole where
  | DataProvider
  | DataConsumer
  | InfrastructureProvider
deriving DecidableEq, Repr

/-- Debug rendering of a role, as produced by Rust `{:?}` formatting. -/
def roleDebugName : PartyRole → String
  | PartyRole.DataProvider => "DataProvider"
  | PartyRole.DataConsumer => "DataConsumer"
  | PartyRole.InfrastructureProvider => "InfrastructureProvider"

/-- A party in a contract (`models/contract.rs`, `ContractParty`). -/
structure ContractParty where
  did : String
  role : PartyRole
  signed_at : Option Int
  signature : Option String
deriving DecidableEq, Repr

/-- Data-processing terms (`models/contract.rs`, `DataProcessingTerms`). -/
structure DataProcessingTerms where
  data_description : String
  allowed_operations : List String
  retention_period_days : Nat
  access_controls : List String
  security_requirements : List String
deriving DecidableEq, Repr

/-- Infrastructure requirements (`models/contract.rs`,
`InfrastructureRequirements`). -/
structure InfrastructureRequirements where
  enclave_type : String
  attestation_type : String
  security_level : String
  certifications : List String
  performance_requirements : List String
deriving DecidableEq, Repr

/-- Contract status (`models/contract.rs`, `ContractStatus`). -/
inductive ContractStatus where
  | Draft
  | PendingSignatures
  | Active
  | Completed
  | Terminated
  | Expired
deriving DecidableEq, Repr

/-- The multi-role contract (`models/contract.rs`, `Contract`). -/
structure Contract where
  id : String
  title : String
  description : String
  version : String
  created_at : Int
  parties : List ContractParty
  processing_terms : DataProcessingTerms
  infrastructure_requirements : InfrastructureRequirements
  valid_from : Int
  valid_until : Int
  status : ContractStatus
  blockchain_tx_hash : Option String
  termination_reason : Option String
deriving DecidableEq, Repr

/-- `Contract::new` (`models/contract.rs`); `Uuid::new_v4()` and `Utc::now()`
are the explicit parameters `id` and `now`. -/
def Contract.new (id : String) (now : Int) (title description : String)
    (processing_terms : DataProcessingTerms)
    (infrastructure_requirements : InfrastructureRequirements)
    (valid_from valid_until : Int) : Contract :=
  { id := id
    title := title
    description := description
    version := "1.0"
    created_at := now
    parties := []
    processing_terms := processing_terms
    infrastructure_requirements := infrastructure_requirements
    valid_from := valid_from
    valid_until := valid_until
    status := ContractStatus.Draft
    blockchain_tx_hash := none
    termination_reason := none }

/-- `Contract::add_party` (`models/contract.rs` lines 138-162): for
`DataConsumer` / `InfrastructureProvider` it rejects an existing party with
the same role; for `DataProvider` it rejects an existing party with the same
DID; otherwise it pushes a fresh unsigned party. -/
def Contract.add_party (c : Contract) (did : String) (role : PartyRole) :
    Except String Contract :=
  match role with
  | PartyRole.DataConsumer | PartyRole.InfrastructureProvider =>
    if c.parties.any (fun p => decide (p.role = role)) then
      Except.error ("Party with role " ++ roleDebugName role ++ " already exists")
    else
      Except.ok { c with parties := c.parties ++ [⟨did, role, none, none⟩] }
  | PartyRole.DataProvider =>
    if c.parties.any (fun p => decide (p.did = did)) then
      Except.error "Party with this DID already exists"
    else
      Except.ok { c with parties := c.parties ++ [⟨did, role, none, none⟩] }

/-- The `iter_mut().find(...)` + in-place mutation inside `Contract::sign`:
update the first party whose DID matches, or return `none` when no party
matches. -/
def signParty (did signature : String) (now : Int) :
    List ContractParty → Option (List ContractParty)
  | [] => none
  | p :: rest =>
    if p.did = did then
      some ({ p with signature := some signature, signed_at := some now } :: rest)
    else
      (signParty did signature now rest).map (fun l => p :: l)

/-- `Contract::sign` (`models/contract.rs` lines 165-182): find the party by
DID (`Party not found` otherwise), record signature and `signed_at = now`,
then recompute the status: `Active` iff every party has a signature,
`PendingSignatures` otherwise. -/
def Contract.sign (c : Contract) (did : String) (signature : String) (now : Int) :
    Except String Contract :=
  match signParty did signature now c.parties with
  | none => Except.error "Party not found"
  | some parties =>
    Except.ok { c with
      parties := parties
      status :=
        if parties.all (fun p => p.signature.isSome) then ContractStatus.Active
        else ContractStatus.PendingSignatures }

/-- `Contract::terminate` (`models/contract.rs` lines 232-235): set status to
`Terminated` and record the reason, unconditionally. -/
def Contract.terminate (c : Contract) (reason : String) : Contract :=
  { c with status := ContractStatus.Terminated, termination_reason := some reason }

/-- Error type of the DID subsystem (`auth/did/mod.rs`, `DIDError`). -/
inductive DIDError where
  | InvalidFormat (s : String)
  | ResolutionFailed (s : String)
  | VerificationMethodNotFound (s : String)
  | InvalidSignature
  | ChallengeExpired
  | StorageError (s : String)
deriving DecidableEq, Repr

/-- An authentication challenge (`auth/did/challenge.rs`, `AuthChallenge`). -/
structure AuthChallenge where
  challenge_id : String
  did : String
  nonce : String
  timestamp : Int
  expiration : Int
deriving DecidableEq, Repr

/-- `AuthChallenge::verify_expiration` (`auth/did/challenge.rs` lines 48-53):
error with `ChallengeExpired` when `Utc::now() > expiration`, success
otherwise. -/
def AuthChallenge.verify_expiration (c : AuthChallenge) (now : Int) :
    Except DIDError Unit :=
  if now > c.expiration then Except.error DIDError.ChallengeExpired
  else Except.ok ()

/-- A verification method of a DID Document (`auth/did/mod.rs`,
`VerificationMethod`). -/
structure VerificationMethod where
  id : String
  type_ : String
  controller : String
  public_key_base58 : String
deriving DecidableEq, Repr

/-- A resolved DID Document (`auth/did/resolver.rs`, `Document`). -/
structure Document where
  id : String
  controller : List String
  verification_method : List VerificationMethod
  authentication : List String
  assertion_method : List String
  updated : Int
deriving DecidableEq, Repr

/-- First-match lookup in an association list, the embedding of
`HashMap::get`. -/
def mapLookup {α : Type} (k : String) : List (String × α) → Option α
  | [] => none
  | kv :: rest => if kv.1 = k then some kv.2 else mapLookup k rest

/-- Replace-on-insert into an association list, the embedding of
`HashMap::insert`. -/
def mapInsert {α : Type} (k : String) (v : α) (m : List (String × α)) :
    List (String × α) :=
  (k, v) :: m.filter (fun kv => decide (kv.1 ≠ k))

/-- Splitting a character list at every occurrence of `sep`, keeping empty
segments — the semantics of Rust `str::split` (and of `String.splitOn` for a
one-character separator), written structurally so that it evaluates. -/
def splitChar (sep : Char) : List Char → List (List Char)
  | [] => [[]]
  | c :: cs =>
    if c = sep then [] :: splitChar sep cs
    else
      match splitChar sep cs with
      | [] => [[c]]
      | seg :: rest => (c :: seg) :: rest

/-- Rust `s.split(sep).collect::<Vec<_>>()`. -/
def rustSplit (sep : Char) (s : String) : List String :=
  (splitChar sep s.toList).map (fun l => String.mk l)

/-- `parse_did_method` (`auth/did/resolver.rs` lines 77-84): split on `:`;
when there are at least two segments and the first is the literal `did`,
return the second segment (the method), otherwise `None`. -/
def parse_did_method (did : String) : Option String :=
  match rustSplit ':' did with
  | p0 :: p1 :: _ => if p0 = "did" then some p1 else none
  | _ => none

/-- The resolver registry plus TTL cache (`auth/did/resolver.rs`,
`MultiResolver`). A registered `dyn DIDResolver` is embedded as a pure
function from DID string to resolution result. -/
structure MultiResolver where
  resolvers : List (String × (String → Except DIDError Document))
  cache : List (String × (Document × Int))
  cache_ttl : Int

/-- Outcome of one `MultiResolver::resolve` call: the returned result, the
cache state after the call, and how many times an underlying registered
resolver was invoked during the call (instrumentation for the cache-hit
claims; the source performs the invocation as `resolver.resolve(did)`). -/
structure ResolveOutcome where
  result : Except DIDError Document
  cache : List (String × (Document × Int))
  invocations : Nat
deriving Repr

/-- The cache-miss path of `MultiResolver::resolve` (`auth/did/resolver.rs`
lines 51-69): parse the method (`InvalidFormat` on failure), look up a
registered resolver (`ResolutionFailed` if none), invoke it, and on success
overwrite the cache entry with `(document, now)`. -/
def MultiResolver.resolveFresh (m : MultiResolver) (now : Int) (did : String) :
    ResolveOutcome :=
  match parse_did_method did with
  | none => ⟨Except.error (DIDError.InvalidFormat did), m.cache, 0⟩
  | some method =>
    match mapLookup method m.resolvers with
    | none =>
      ⟨Except.error (DIDError.ResolutionFailed ("No resolver for method: " ++ method)),
        m.cache, 0⟩
    | some resolver =>
      match resolver did with
      | Except.error e => ⟨Except.error e, m.cache, 1⟩
      | Except.ok document =>
        ⟨Except.ok document, mapInsert did (document, now) m.cache, 1⟩

/-- `MultiResolver::resolve` (`auth/did/resolver.rs` lines 43-70): return the
cached document when the entry is younger than `cache_ttl`
(`Utc::now() - timestamp < cache_ttl`); otherwise fall through to the
cache-miss path. -/
def MultiResolver.resolve (m : MultiResolver) (now : Int) (did : String) :
    ResolveOutcome :=
  match mapLookup did m.cache with
  | some dt =>
    if now - dt.2 < m.cache_ttl then ⟨Except.ok dt.1, m.cache, 0⟩
    else m.resolveFresh now did
  | none => m.resolveFresh now did

/-- The Bitcoin base58 alphabet used by the `bs58` crate. -/
def base58Chars : List Char :=
  "123456789ABCDEFGHJKLMNPQRSTUVWXYZabcdefghijkmnopqrstuvwxyz".toList

/-- Index of a character in a list, counting from `i`. -/
def findIdxFrom (c : Char) : Nat → List Char → Option Nat
  | _, [] => none
  | i, x :: xs => if x = c then some i else findIdxFrom c (i + 1) xs

/-- Value of one base58 digit; `none` for a character outside the alphabet
(the `bs58` decode error case). -/
def b58Digit (c : Char) : Option Nat := findIdxFrom c 0 base58Chars

/-- Base-58 accumulation of a character list into a natural number;
`none` on the first invalid character. -/
def b58DecodeLoop : List Char → Nat → Option Nat
  | [], acc => some acc
  | c :: cs, acc =>
    match b58Digit c with
    | none => none
    | some d => b58DecodeLoop cs (acc * 58 + d)

/-- Number of leading `1` characters, each denoting one leading zero byte in
base58. -/
def countLeadingOnes : List Char → Nat
  | [] => 0
  | c :: cs => if c = '1' then countLeadingOnes cs + 1 else 0

/-- Big-endian byte expansion of a natural number (empty for zero); the
`fuel` argument makes the division recursion structural, and `fuel = n`
always suffices since `n / 256 < n` for positive `n`. -/
def natToBytesBEAux : Nat → Nat → List Nat
  | 0, _ => []
  | fuel + 1, n => if n = 0 then [] else natToBytesBEAux fuel (n / 256) ++ [n % 256]

/-- Big-endian byte expansion of a natural number (empty for zero). -/
def natToBytesBE (n : Nat) : List Nat := natToBytesBEAux n n

/-- `bs58::decode(..).into_vec()`: fail on any character outside the base58
alphabet; otherwise each leading `1` contributes a zero byte and the rest is
the big-endian byte expansion of the base-58 value. -/
def b58decode (s : String) : Option (List Nat) :=
  match b58DecodeLoop s.toList 0 with
  | none => none
  | some value =>
    some (List.replicate (countLeadingOnes s.toList) 0 ++ natToBytesBE value)

/-- UTF-8 bytes of a string (`message.as_bytes()` in the source). -/
def strBytes (s : String) : List Nat := s.toUTF8.toList.map (fun b => b.toNat)

/-- The ed25519-dalek primitives used by `verify_ed25519`
(`auth/did/verification.rs`): `PublicKey::from_bytes`,
`Signature::from_bytes` (both fallible) and `PublicKey::verify` reduced to
its boolean outcome (`.is_ok()`). They are third-party cryptographic code,
kept opaque; the embedding is parameterized over them. -/
structure Ed25519Impl (PK SIG : Type) where
  publicKeyFromBytes : List Nat → Option PK
  signatureFromBytes : List Nat → Option SIG
  verify : PK → List Nat → SIG → Bool

/-- `verify_ed25519` (`auth/did/verification.rs` lines 64-80): base58-decode
the public key and the signature (`InvalidSignature` on either failure),
parse both with dalek (`InvalidSignature` on either failure), then return
`Ok` of the boolean verification outcome over the message's UTF-8 bytes. -/
def verify_ed25519 {PK SIG : Type} (impl : Ed25519Impl PK SIG)
    (message signature public_key : String) : Except DIDError Bool :=
  match b58decode public_key with
  | none => Except.error DIDError.InvalidSignature
  | some public_key_bytes =>
    match b58decode signature with
    | none => Except.error DIDError.InvalidSignature
    | some signature_bytes =>
      match impl.publicKeyFromBytes public_key_bytes with
      | none => Except.error DIDError.InvalidSignature
      | some pk =>
        match impl.signatureFromBytes signature_bytes with
        | none => Except.error DIDError.InvalidSignature
        | some sg => Except.ok (impl.verify pk (strBytes message) sg)

/-- A signature proof (`auth/did/verification.rs`, `SignatureProof`). -/
structure SignatureProof where
  type_ : String
  created : Int
  verification_method : String
  proof_purpose : String
  proof_value : String
deriving DecidableEq, Repr

/-- Signature scheme tag (`models/contract.rs`, `SignatureType`). -/
inductive SignatureType where
  | Ed25519
  | EcdsaSecp256k1
deriving DecidableEq, Repr

/-- A recorded contract signature (`models/contract.rs`,
`ContractSignature`). -/
structure ContractSignature where
  id : String
  contract_id : String
  signer_did : String
  signature : String
  signature_type : SignatureType
  verification_method : String
  signed_at : Int
  proof : SignatureProof
deriving DecidableEq, Repr

/-- The two-party sea_orm contract row (`models/contract.rs`, `Model`); the
opaque `serde_json` metadata column is embedded as a `String`. -/
structure Model where
  id : String
  title : String
  description : String
  provider_did : String
  consumer_did : String
  terms : String
  status : ContractStatus
  valid_from : Int
  valid_until : Option Int
  created_at : Int
  updated_at : Int
  signatures : List ContractSignature
  metadata : String
deriving DecidableEq, Repr

/-- `Model::generate_signing_message` (`models/contract.rs` lines 304-322).
The sha256 hex digest of the terms is an opaque deterministic function passed
as the `sha256digest` parameter; the `Display` rendering of a timestamp is
embedded as `toString` of its integer value; the trailing `Timestamp:` line
renders `Utc::now()`, which is the explicit `now` parameter. -/
def Model.generate_signing_message (sha256digest : String → String)
    (m : Model) (now : Int) : String :=
  "Contract Signature Request\nContract ID: " ++ m.id ++
  "\nTitle: " ++ m.title ++
  "\nProvider DID: " ++ m.provider_did ++
  "\nConsumer DID: " ++ m.consumer_did ++
  "\nValid From: " ++ toString m.valid_from ++
  "\nTerms Hash: " ++ sha256digest m.terms ++
  "\nTimestamp: " ++ toString now

/-- `ServiceError` is referenced by `services/contract.rs` but its definition
is not among the sources; the variants below are the ones its call sites
construct. -/
inductive ServiceError where
  | AuthorizationError (s : String)
  | ValidationError (s : String)
  | EnclaveError (s : String)
  | BlockchainError (s : String)
deriving DecidableEq, Repr

/-- `ContractService::terminate_contract` (`services/contract.rs` lines
462-481): reject with `AuthorizationError` when the terminator DID is not a
party, otherwise delegate to `Contract::terminate`. The blockchain-ledger
recording and enclave shutdown in between are external collaborators (out of
scope per the spec) and are embedded as succeeding. -/
def terminate_contract (c : Contract) (reason : String) (terminator_did : String) :
    Except ServiceError Contract :=
  if c.parties.any (fun p => decide (p.did = terminator_did)) then
    Except.ok (c.terminate reason)
  else
    Except.error (ServiceError.AuthorizationError "Not authorized to terminate contract")

deriving instance DecidableEq for Except

/-! Concrete fixtures, mirroring the repository's own test fixtures
(`create_test_contract` in `models/contract.rs`). -/

/-- Processing terms used by the repository's tests. -/
def pt0 : DataProcessingTerms :=
  ⟨"Test data", ["analyze"], 30, ["encryption"], ["attestation"]⟩

/-- Infrastructure requirements used by the repository's tests. -/
def ir0 : InfrastructureRequirements :=
  ⟨"AWS Nitro", "DCE", "High", ["ISO27001"], ["4 vCPUs"]⟩

/-- A freshly created contract with no parties. -/
def contract0 : Contract :=
  Contract.new "c-0" 0 "Test Contract" "Test Description" pt0 ir0 0 100

/-- A two-party sea_orm contract row in `Draft`. -/
def model0 : Model :=
  ⟨"c-1", "Test Contract", "d", "did:example:provider", "did:example:consumer",
    "terms", ContractStatus.Draft, 0, none, 0, 0, [], ""⟩

/-- A partially built contract: one data provider and one data consumer,
nobody signed yet. -/
def c2base : Contract :=
  { contract0 with parties :=
      [⟨"did:example:p", PartyRole.DataProvider, none, none⟩,
        ⟨"did:example:c", PartyRole.DataConsumer, none, none⟩] }

/-- `c2base` after the provider signed once. -/
def c2signed1 : Contract :=
  { c2base with
    parties :=
      [⟨"did:example:p", PartyRole.DataProvider, some 1, some "sig1"⟩,
        ⟨"did:example:c", PartyRole.DataConsumer, none, none⟩]
    status := ContractStatus.PendingSignatures }

/-- `c2signed1` after the provider signed a second time: the recorded
signature has been replaced. -/
def c2signed2 : Contract :=
  { c2base with
    parties :=
      [⟨"did:example:p", PartyRole.DataProvider, some 2, some "sig2"⟩,
        ⟨"did:example:c", PartyRole.DataConsumer, none, none⟩]
    status := ContractStatus.PendingSignatures }

/-- An already-terminated contract with one party and a recorded reason. -/
def termContract : Contract :=
  { contract0 with
    parties := [⟨"did:example:p", PartyRole.DataProvider, none, none⟩]
    status := ContractStatus.Terminated
    termination_reason := some "r1" }

/-- C10: a party records a signature iff it records a signing timestamp. -/
def sigTimeInv (c : Contract) : Prop :=
  ∀ p ∈ c.parties, (p.signature = none ↔ p.signed_at = none)

/-- `contract0` after adding `did:example:x` as data provider. -/
def c4a : Contract :=
  { contract0 with parties :=
      [⟨"did:example:x", PartyRole.DataProvider, none, none⟩] }

/-- `c4a` after adding the same DID again as data consumer. -/
def c4b : Contract :=
  { contract0 with parties :=
      [⟨"did:example:x", PartyRole.DataProvider, none, none⟩,
        ⟨"did:example:x", PartyRole.DataConsumer, none, none⟩] }

/-- The parties of `c` holding the given role. -/
def roleFilter (c : Contract) (r : PartyRole) : List ContractParty :=
  c.parties.filter (fun p => decide (p.role = r))

/-- C4 amended invariant: at most one `DataConsumer`, at most one
`InfrastructureProvider`, and pairwise-distinct DIDs among the
`DataProvider` parties (so each DID occurs at most once per role) — but not
DID uniqueness across different roles. -/
def AddInv (c : Contract) : Prop :=
  (roleFilter c PartyRole.DataConsumer).length ≤ 1 ∧
  (roleFilter c PartyRole.InfrastructureProvider).length ≤ 1 ∧
  ((roleFilter c PartyRole.DataProvider).map (fun p => p.did)).Nodup

/-- A resolver function that succeeds with a fixed document shape, standing
for a registered method resolver. -/
def exampleResolverFn : String → Except DIDError Document :=
  fun d => Except.ok ⟨d, [d], [], [], [], 0⟩

/-- A `MultiResolver` with one registered method `example`, empty cache and a
TTL of 300. -/
def mExample : MultiResolver := ⟨[("example", exampleResolverFn)], [], 300⟩

/-- The three-segment shape `did:<method>:<rest>` in the claim's wording
(modelled from the claim, for the refutation): at least three colon-separated
segments, the first being the literal `did`. -/
def specDidShape (s : String) : Bool :=
  match rustSplit ':' s with
  | p0 :: _ :: _ :: _ => decide (p0 = "did")
  | _ => false

/-- C5 counterexample. The claim states that resolving the same DID twice
within the TTL invokes the underlying resolver at most once. With a
registered resolver that fails, the failed result is not cached, so the two
calls — one time unit apart, far within the TTL of 300 — each invoke the
resolver: two invocations. -/
def boomResolverFn : String → Except DIDError Document :=
  fun _ => Except.error (DIDError.ResolutionFailed "boom")

/-- A `MultiResolver` whose only registered resolver always fails. -/
def mBoom : MultiResolver := ⟨[("example", boomResolverFn)], [], 300⟩

/-- A base58 string of 32 `1` characters: decodes to 32 zero bytes, the
length of an Ed25519 public key. -/
def ones32 : String := String.mk (List.replicate 32 '1')

/-- A base58 string of 64 `1` characters: decodes to 64 zero bytes, the
length of an Ed25519 signature. -/
def ones64 : String := String.mk (List.replicate 64 '1')

/-- A dalek-shaped implementation whose key/signature parsers enforce the
Ed25519 lengths (32 and 64 bytes) and for which the signature does *not*
verify — the cryptographic-mismatch case. -/
def mismatchImpl : Ed25519Impl Unit Unit :=
  { publicKeyFromBytes := fun b => if b.length = 32 then some () else none
    signatureFromBytes := fun b => if b.length = 64 then some () else none
    verify := fun _ _ _ => false }

/-- An implementation that accepts any decoded bytes and verifies every
signature — used to exercise the success path. -/
def acceptImpl : Ed25519Impl Unit Unit :=
  { publicKeyFromBytes := fun _ => some ()
    signatureFromBytes := fun _ => some ()
    verify := fun _ _ _ => true }

/-- An implementation whose `PublicKey::from_bytes` always fails. -/
def noKeyImpl : Ed25519Impl Unit Unit :=
  { publicKeyFromBytes := fun _ => none
    signatureFromBytes := fun _ => some ()
    verify := fun _ _ _ => true }

/-- An implementation whose `Signature::from_bytes` always fails. -/
def noSigImpl : Ed25519Impl Unit Unit :=
  { publicKeyFromBytes := fun _ => some ()
    signatureFromBytes := fun _ => none
    verify := fun _ _ _ => true }

/-- A sequence of `sign` calls, each given as `(did, signature, now)`,
short-circuiting on the first error. -/
def signFold (c : Contract) : List (String × String × Int) → Except String Contract
  | [] => Except.ok c
  | x :: rest =>
    match c.sign x.1 x.2.1 x.2.2 with
    | Except.error e => Except.error e
    | Except.ok c2 => signFold c2 rest

/-- Number of parties holding a role. -/
def roleCount (c : Contract) (r : PartyRole) : Nat := (roleFilter c r).length

/-- The signing state of a party list relative to a list `S` of DIDs that
have signed: a party carries a signature exactly when its DID is in `S`. -/
def SigState (l : List ContractParty) (S : List String) : Prop :=
  ∀ p ∈ l, (p.signature.isSome = true ↔ p.did ∈ S)

/-- A three-party contract (one data provider, one data consumer, one
infrastructure provider), nobody signed. -/
def c3base : Contract :=
  { contract0 with parties :=
      [⟨"did:example:provider", PartyRole.DataProvider, none, none⟩,
        ⟨"did:example:consumer", PartyRole.DataConsumer, none, none⟩,
        ⟨"did:example:infra", PartyRole.InfrastructureProvider, none, none⟩] }

/-- The three signing calls of the repository's `test_signing_flow`. -/
def ds3 : List (String × String × Int) :=
  [("did:example:provider", "sig1", 1), ("did:example:consumer", "sig2", 2),
    ("did:example:infra", "sig3", 3)]

/-! ## Claim theorems -/


set_option maxRecDepth 10000 in
/-- C1. The claim states that `generate_signing_message` depends only on
fields fixed at contract creation, so two calls at any two times agree
byte-for-byte. The code appends a `Timestamp:` line rendering `Utc::now()`:
at the failing input `model0` with the two call times `0` and `1`, the two
messages differ. (The spec itself flags this wall-clock dependence as a
source bug its canonical message definition removes.) -/
theorem claim_C1_signing_message_not_reproducible :
    Model.generate_signing_message (fun s => s) model0 0 ≠
      Model.generate_signing_message (fun s => s) model0 1 := by decide

/-- C6. `verify_expiration` errors with `ChallengeExpired` exactly when
`now > expiration` and succeeds exactly when `now ≤ expiration`; in
particular at `now = expiration` the challenge is still valid. -/
theorem claim_C6_expiration_boundary (c : AuthChallenge) (now : Int) :
    (c.verify_expiration now = Except.error DIDError.ChallengeExpired ↔
      c.expiration < now) ∧
    (c.verify_expiration now = Except.ok () ↔ now ≤ c.expiration) := by
  unfold AuthChallenge.verify_expiration
  split_ifs with h
  · constructor
    · simp [gt_iff_lt.mp h]
    · simp [not_le.mpr h]
  · constructor
    · simp [not_lt.mp (by exact fun hc => h hc)]
    · simp [not_lt.mp (by exact fun hc => h hc)]

/-- C9 counterexample. The claim states that terminating an
already-`Terminated` contract returns an `InvalidContractState` error; at
the concrete input `termContract` (already terminated with reason `r1`),
both `Contract::terminate` and the service path silently succeed and
overwrite the recorded reason with `r2`. -/
theorem claim_C9_counterexample :
    termContract.status = ContractStatus.Terminated ∧
    termContract.terminate "r2" =
      { termContract with termination_reason := some "r2" } ∧
    (termContract.terminate "r2").termination_reason = some "r2" ∧
    terminate_contract termContract "r2" "did:example:p" =
      Except.ok (termContract.terminate "r2") := by decide

/-- C9 amended. `terminate(reason)` succeeds from every state — including
`Terminated` — setting the status to `Terminated` and recording the reason
(overwriting any previously recorded reason); the service path rejects only
a terminator DID that is not a party (`AuthorizationError`), never the
contract state. -/
theorem claim_C9_terminate_unconditional :
    (∀ (c : Contract) (reason : String),
      (c.terminate reason).status = ContractStatus.Terminated ∧
      (c.terminate reason).termination_reason = some reason) ∧
    (∀ (c : Contract) (reason did : String),
      c.parties.any (fun p => decide (p.did = did)) = true →
      terminate_contract c reason did = Except.ok (c.terminate reason)) ∧
    (∀ (c : Contract) (reason did : String),
      c.parties.any (fun p => decide (p.did = did)) = false →
      terminate_contract c reason did =
        Except.error (ServiceError.AuthorizationError
          "Not authorized to terminate contract")) := by
  refine ⟨fun c reason => ⟨rfl, rfl⟩, fun c reason did h => ?_, fun c reason did h => ?_⟩
  · simp [terminate_contract, h]
  · simp [terminate_contract, h]

/-- C9 witness: the amended theorem applied at `termContract`. -/
theorem claim_C9_terminate_unconditional_witness :
    (termContract.terminate "r2").status = ContractStatus.Terminated ∧
    (termContract.terminate "r2").termination_reason = some "r2" ∧
    terminate_contract termContract "r2" "did:example:p" =
      Except.ok (termContract.terminate "r2") ∧
    terminate_contract termContract "r2" "did:example:nobody" =
      Except.error (ServiceError.AuthorizationError
        "Not authorized to terminate contract") :=
  ⟨(claim_C9_terminate_unconditional.1 termContract "r2").1,
    (claim_C9_terminate_unconditional.1 termContract "r2").2,
    claim_C9_terminate_unconditional.2.1 termContract "r2" "did:example:p" (by decide),
    claim_C9_terminate_unconditional.2.2 termContract "r2" "did:example:nobody" (by decide)⟩

/-! ## Helper lemmas on `signParty` -/

/-- `signParty` returns `none` exactly when no party has the given DID. -/
theorem signParty_eq_none_iff {d s : String} {t : Int} {l : List ContractParty} :
    signParty d s t l = none ↔ ∀ p ∈ l, p.did ≠ d := by
  induction l with
  | nil => simp [signParty]
  | cons p rest ih =>
    by_cases h : p.did = d
    · simp [signParty, h]
    · simp only [signParty, if_neg h, Option.map_eq_none', List.mem_cons]
      constructor
      · intro hr q hq
        rcases hq with hq | hq
        · exact hq ▸ h
        · exact ih.mp hr q hq
      · intro hall
        exact ih.mpr fun q hq => hall q (Or.inr hq)

/-- Precise shape of a successful `signParty`: the list splits at the first
party whose DID matches, and only that party is replaced by its signed
copy. -/
theorem signParty_split {d s : String} {t : Int} {l l2 : List ContractParty}
    (h : signParty d s t l = some l2) :
    ∃ l₁ p l₃, l = l₁ ++ p :: l₃ ∧ (∀ q ∈ l₁, q.did ≠ d) ∧ p.did = d ∧
      l2 = l₁ ++ ({ p with signature := some s, signed_at := some t } :: l₃) := by
  induction l generalizing l2 with
  | nil => simp [signParty] at h
  | cons p rest ih =>
    by_cases hd : p.did = d
    · rw [signParty, if_pos hd] at h
      injection h with h2
      exact ⟨[], p, rest, by simp, by simp, hd, by rw [List.nil_append, ← h2]⟩
    · rw [signParty, if_neg hd] at h
      rw [Option.map_eq_some'] at h
      obtain ⟨r2, hr2, hl2⟩ := h
      obtain ⟨l₁, q, l₃, hsplit, hnone, hq, hr⟩ := ih hr2
      refine ⟨p :: l₁, q, l₃, by simp [hsplit], ?_, hq, by simp [← hl2, hr]⟩
      intro x hx
      rcases List.mem_cons.mp hx with hx | hx
      · exact hx ▸ hd
      · exact hnone x hx

/-- C2 counterexample. The claim states that a second `sign` from the same
DID returns `AlreadySigned`; at the concrete input `c2signed1` (provider
already signed with `sig1`), the second `sign` call succeeds and replaces
the recorded signature with `sig2` and the timestamp with the new time. -/
theorem claim_C2_counterexample :
    c2base.sign "did:example:p" "sig1" 1 = Except.ok c2signed1 ∧
    c2signed1.sign "did:example:p" "sig2" 2 = Except.ok c2signed2 ∧
    c2signed2.parties.head? =
      some ⟨"did:example:p", PartyRole.DataProvider, some 2, some "sig2"⟩ := by
  decide

/-- C2 amended. `Contract::sign` never returns an `AlreadySigned` error:
whenever the DID belongs to a party — already signed or not — the call
succeeds and (re)records the signature and `signed_at` on the first matching
party; the only error is `Party not found` for a DID that is no party. -/
theorem claim_C2_sign_replaces_signature (c : Contract) (did sig : String) (now : Int) :
    ((∃ p ∈ c.parties, p.did = did) →
      ∃ c2, c.sign did sig now = Except.ok c2 ∧
        ∃ p ∈ c2.parties, p.did = did ∧ p.signature = some sig ∧
          p.signed_at = some now) ∧
    ((∀ p ∈ c.parties, p.did ≠ did) →
      c.sign did sig now = Except.error "Party not found") := by
  constructor
  · intro hex
    match hsp : signParty did sig now c.parties with
    | none =>
      obtain ⟨p, hp, hpd⟩ := hex
      exact absurd hpd (signParty_eq_none_iff.mp hsp p hp)
    | some parties =>
      obtain ⟨l₁, p, l₃, _, _, hpd, hl2⟩ := signParty_split hsp
      have hok : c.sign did sig now = Except.ok { c with
          parties := parties
          status :=
            if parties.all (fun q => q.signature.isSome) then ContractStatus.Active
            else ContractStatus.PendingSignatures } := by
        rw [Contract.sign, hsp]
      refine ⟨_, hok, ?_⟩
      exact ⟨{ p with signature := some sig, signed_at := some now },
        by simp [hl2], hpd, rfl, rfl⟩
  · intro hall
    rw [Contract.sign, signParty_eq_none_iff.mpr hall]

/-- C2 witness: the amended theorem applied at the already-signed contract
`c2signed1` and at a DID that is not a party. -/
theorem claim_C2_sign_replaces_signature_witness :
    (∃ c2, c2signed1.sign "did:example:p" "x" 5 = Except.ok c2 ∧
      ∃ p ∈ c2.parties, p.did = "did:example:p" ∧ p.signature = some "x" ∧
        p.signed_at = some 5) ∧
    c2signed1.sign "did:example:nobody" "x" 5 = Except.error "Party not found" :=
  ⟨(claim_C2_sign_replaces_signature c2signed1 "did:example:p" "x" 5).1 (by decide),
    (claim_C2_sign_replaces_signature c2signed1 "did:example:nobody" "x" 5).2 (by decide)⟩

/-- A successful `add_party` pushes exactly one fresh unsigned party. -/
theorem add_party_ok_parties {c : Contract} {did : String} {role : PartyRole}
    {c2 : Contract} (h : c.add_party did role = Except.ok c2) :
    c2.parties = c.parties ++ [⟨did, role, none, none⟩] := by
  cases role
  all_goals simp only [Contract.add_party] at h
  all_goals split at h
  all_goals
    first
    | exact Except.noConfusion h
    | (injection h with h2; rw [← h2])

/-- C10. Every contract obtained from `new` by `add_party`, `sign` and
`terminate` keeps each party's `signature` and `signed_at` fields
synchronized: both `none` or both `some`. -/
theorem claim_C10_signature_timestamp_sync :
    (∀ (id : String) (now : Int) (title description : String)
      (pt : DataProcessingTerms) (ir : InfrastructureRequirements)
      (vf vu : Int),
      sigTimeInv (Contract.new id now title description pt ir vf vu)) ∧
    (∀ (c : Contract) (did : String) (role : PartyRole) (c2 : Contract),
      sigTimeInv c → c.add_party did role = Except.ok c2 → sigTimeInv c2) ∧
    (∀ (c : Contract) (did sig : String) (now : Int) (c2 : Contract),
      sigTimeInv c → c.sign did sig now = Except.ok c2 → sigTimeInv c2) ∧
    (∀ (c : Contract) (reason : String),
      sigTimeInv c → sigTimeInv (c.terminate reason)) := by
  refine ⟨?_, ?_, ?_, ?_⟩
  · intro id now title description pt ir vf vu p hp
    simp [Contract.new] at hp
  · intro c did role c2 hinv hadd p hp
    rw [add_party_ok_parties hadd] at hp
    rcases List.mem_append.mp hp with hp | hp
    · exact hinv p hp
    · simp at hp
      simp [hp]
  · intro c did sig now c2 hinv hsign p hp
    unfold Contract.sign at hsign
    match hsp : signParty did sig now c.parties with
    | none => rw [hsp] at hsign; cases hsign
    | some parties =>
      rw [hsp] at hsign
      simp only [Except.ok.injEq] at hsign
      obtain ⟨l₁, q, l₃, hsplit, _, _, hl2⟩ := signParty_split hsp
      have hp2 : p ∈ c2.parties := hp
      rw [← hsign] at hp2
      simp only [hl2] at hp2
      rcases List.mem_append.mp hp2 with hmem | hmem
      · exact hinv p (by rw [hsplit]; exact List.mem_append.mpr (Or.inl hmem))
      · rcases List.mem_cons.mp hmem with hmem | hmem
        · simp [hmem]
        · exact hinv p
            (by rw [hsplit]; exact List.mem_append.mpr (Or.inr (List.mem_cons_of_mem _ hmem)))
  · intro c reason hinv p hp
    exact hinv p hp

/-- C10 witness: the invariant, instantiated along the concrete signing flow
fixtures. -/
theorem claim_C10_signature_timestamp_sync_witness :
    sigTimeInv (Contract.new "c-0" 0 "t" "d" pt0 ir0 0 100) ∧
    sigTimeInv c2signed1 ∧ sigTimeInv (termContract.terminate "r2") :=
  ⟨claim_C10_signature_timestamp_sync.1 "c-0" 0 "t" "d" pt0 ir0 0 100,
    claim_C10_signature_timestamp_sync.2.2.1 c2base "did:example:p" "sig1" 1 c2signed1
      (by intro p hp; fin_cases hp <;> simp)
      (by decide),
    claim_C10_signature_timestamp_sync.2.2.2 termContract "r2"
      (by intro p hp; fin_cases hp <;> simp)⟩

/-! ## C4: DID uniqueness across `add_party` -/

/-- C4 counterexample. The claim states that each DID appears at most once
among the parties, so a DID registered under one role cannot be added under
another. At the concrete input: adding `did:example:x` as `DataProvider` and
then again as `DataConsumer` both succeed — the role-cardinality check for
`DataConsumer` only inspects roles, never DIDs — leaving the DID twice in
the party list. -/
theorem claim_C4_counterexample :
    contract0.add_party "did:example:x" PartyRole.DataProvider = Except.ok c4a ∧
    c4a.add_party "did:example:x" PartyRole.DataConsumer = Except.ok c4b ∧
    c4b.parties.map (fun p => p.did) = ["did:example:x", "did:example:x"] ∧
    ¬ (c4b.parties.map (fun p => p.did)).Nodup := by decide

/-- C4 amended. `add_party` maintains per-role uniqueness: a freshly created
contract satisfies `AddInv`, and every successful `add_party` preserves it.
(The cross-role DID-uniqueness of the original claim fails, see the
counterexample.) -/
theorem claim_C4_add_party_per_role_unique :
    (∀ (id : String) (now : Int) (title description : String)
      (pt : DataProcessingTerms) (ir : InfrastructureRequirements) (vf vu : Int),
      AddInv (Contract.new id now title description pt ir vf vu)) ∧
    (∀ (c : Contract) (did : String) (role : PartyRole) (c2 : Contract),
      AddInv c → c.add_party did role = Except.ok c2 → AddInv c2) := by
  constructor
  · intro id now title description pt ir vf vu
    exact ⟨by simp [roleFilter, Contract.new], by simp [roleFilter, Contract.new],
      by simp [roleFilter, Contract.new]⟩
  · intro c did role c2 hinv hadd
    have hparties := add_party_ok_parties hadd
    obtain ⟨hdc, hip, hdp⟩ := hinv
    cases role with
    | DataConsumer =>
      have hrole : ∀ p ∈ c.parties, p.role ≠ PartyRole.DataConsumer := by
        simp only [Contract.add_party] at hadd
        split at hadd
        · exact Except.noConfusion hadd
        · rename_i hg
          intro p hp he
          exact hg (List.any_eq_true.mpr ⟨p, hp, decide_eq_true he⟩)
      have hnone : roleFilter c PartyRole.DataConsumer = [] :=
        List.filter_eq_nil_iff.mpr fun p hp => by simpa using hrole p hp
      have h1 : roleFilter c2 PartyRole.DataConsumer =
          roleFilter c PartyRole.DataConsumer ++
            [⟨did, PartyRole.DataConsumer, none, none⟩] := by
        simp [roleFilter, hparties, List.filter_append]
      have h2 : roleFilter c2 PartyRole.InfrastructureProvider =
          roleFilter c PartyRole.InfrastructureProvider := by
        simp [roleFilter, hparties, List.filter_append]
      have h3 : roleFilter c2 PartyRole.DataProvider =
          roleFilter c PartyRole.DataProvider := by
        simp [roleFilter, hparties, List.filter_append]
      refine ⟨?_, ?_, ?_⟩
      · rw [h1, hnone]
        simp
      · rw [h2]
        exact hip
      · rw [h3]
        exact hdp
    | InfrastructureProvider =>
      have hrole : ∀ p ∈ c.parties, p.role ≠ PartyRole.InfrastructureProvider := by
        simp only [Contract.add_party] at hadd
        split at hadd
        · exact Except.noConfusion hadd
        · rename_i hg
          intro p hp he
          exact hg (List.any_eq_true.mpr ⟨p, hp, decide_eq_true he⟩)
      have hnone : roleFilter c PartyRole.InfrastructureProvider = [] :=
        List.filter_eq_nil_iff.mpr fun p hp => by simpa using hrole p hp
      have h1 : roleFilter c2 PartyRole.InfrastructureProvider =
          roleFilter c PartyRole.InfrastructureProvider ++
            [⟨did, PartyRole.InfrastructureProvider, none, none⟩] := by
        simp [roleFilter, hparties, List.filter_append]
      have h2 : roleFilter c2 PartyRole.DataConsumer =
          roleFilter c PartyRole.DataConsumer := by
        simp [roleFilter, hparties, List.filter_append]
      have h3 : roleFilter c2 PartyRole.DataProvider =
          roleFilter c PartyRole.DataProvider := by
        simp [roleFilter, hparties, List.filter_append]
      refine ⟨?_, ?_, ?_⟩
      · rw [h2]
        exact hdc
      · rw [h1, hnone]
        simp
      · rw [h3]
        exact hdp
    | DataProvider =>
      have hfresh : ∀ p ∈ c.parties, p.did ≠ did := by
        simp only [Contract.add_party] at hadd
        split at hadd
        · exact Except.noConfusion hadd
        · rename_i hg
          intro p hp he
          exact hg (List.any_eq_true.mpr ⟨p, hp, decide_eq_true he⟩)
      have h1 : roleFilter c2 PartyRole.DataProvider =
          roleFilter c PartyRole.DataProvider ++
            [⟨did, PartyRole.DataProvider, none, none⟩] := by
        simp [roleFilter, hparties, List.filter_append]
      have h2 : roleFilter c2 PartyRole.DataConsumer =
          roleFilter c PartyRole.DataConsumer := by
        simp [roleFilter, hparties, List.filter_append]
      have h3 : roleFilter c2 PartyRole.InfrastructureProvider =
          roleFilter c PartyRole.InfrastructureProvider := by
        simp [roleFilter, hparties, List.filter_append]
      refine ⟨?_, ?_, ?_⟩
      · rw [h2]
        exact hdc
      · rw [h3]
        exact hip
      · rw [h1, List.map_append, List.nodup_append]
        refine ⟨hdp, by simp, ?_⟩
        intro a ha hb
        simp only [List.map_cons, List.map_nil, List.mem_singleton] at hb
        obtain ⟨p, hpmem, hpdid⟩ := List.mem_map.mp ha
        have hpc : p ∈ c.parties := (List.mem_filter.mp hpmem).1
        exact hfresh p hpc (hpdid.trans hb)

/-- C4 witness: the amended invariant, applied to a fresh contract and along
one successful `add_party` step. -/
theorem claim_C4_add_party_per_role_unique_witness :
    AddInv (Contract.new "c-0" 0 "t" "d" pt0 ir0 0 100) ∧ AddInv c4a :=
  ⟨claim_C4_add_party_per_role_unique.1 "c-0" 0 "t" "d" pt0 ir0 0 100,
    claim_C4_add_party_per_role_unique.2 contract0 "did:example:x"
      PartyRole.DataProvider c4a
      ⟨by decide, by decide, by decide⟩ (by decide)⟩

/-! ## C8: DID format parsing in `resolve` -/

/-- C8 counterexample. The claim states that every input not of the shape
`did:<method>:<rest>` fails with `InvalidFormat`. The concrete input
`did:example` has only two colon-separated segments, yet `parse_did_method`
accepts it (it requires only two segments) and `resolve` happily resolves it
instead of returning `InvalidFormat`. -/
theorem claim_C8_counterexample :
    specDidShape "did:example" = false ∧
    parse_did_method "did:example" = some "example" ∧
    (mExample.resolve 0 "did:example").result =
      Except.ok ⟨"did:example", ["did:example"], [], [], [], 0⟩ := by decide

/-- C8 amended. With no cache entry for the input, `resolve` fails with
`InvalidFormat` exactly on the inputs rejected by `parse_did_method`: those
whose colon-split has fewer than two segments or whose first segment is not
the literal `did` (a two-segment `did:<method>` input is *accepted*); in
particular `resolve("not-a-did")` fails with `InvalidFormat`. -/
theorem claim_C8_invalid_format :
    (∀ (m : MultiResolver) (now : Int) (s : String),
      mapLookup s m.cache = none →
      parse_did_method s = none →
      (m.resolve now s).result = Except.error (DIDError.InvalidFormat s)) ∧
    (∀ s : String, parse_did_method s = none ↔
      ((rustSplit ':' s).length < 2 ∨ (rustSplit ':' s).head? ≠ some "did")) ∧
    (mExample.resolve 0 "not-a-did").result =
      Except.error (DIDError.InvalidFormat "not-a-did") := by
  refine ⟨?_, ?_, by decide⟩
  · intro m now s hc hp
    rw [MultiResolver.resolve, hc, MultiResolver.resolveFresh, hp]
  · intro s
    unfold parse_did_method
    match h : rustSplit ':' s with
    | [] => simp
    | [p0] => simp
    | p0 :: p1 :: rest =>
      by_cases hp : p0 = "did"
      · simp [hp]
      · simp [hp]

/-- C8 witness: the amended theorem applied at `mExample` and the concrete
malformed inputs `not-a-did` and `invalid`. -/
theorem claim_C8_invalid_format_witness :
    (mExample.resolve 5 "not-a-did").result =
      Except.error (DIDError.InvalidFormat "not-a-did") ∧
    (parse_did_method "invalid" = none ↔
      ((rustSplit ':' "invalid").length < 2 ∨
        (rustSplit ':' "invalid").head? ≠ some "did")) :=
  ⟨claim_C8_invalid_format.1 mExample 5 "not-a-did" (by decide) (by decide),
    claim_C8_invalid_format.2.1 "invalid"⟩

/-! ## C5: cache-hit behaviour of `resolve` -/

/-- Looking up the key just inserted returns the inserted value. -/
theorem mapLookup_mapInsert {α : Type} (k : String) (v : α)
    (m : List (String × α)) : mapLookup k (mapInsert k v m) = some v := by
  simp [mapLookup, mapInsert]

/-- The cache-miss path either succeeds, invoking the resolver once and
writing the document back at time `now`, or fails without touching the
cache. -/
theorem resolveFresh_spec (m : MultiResolver) (now : Int) (did : String) :
    (∃ doc, m.resolveFresh now did =
        ⟨Except.ok doc, mapInsert did (doc, now) m.cache, 1⟩) ∨
    ((m.resolveFresh now did).cache = m.cache ∧
      (m.resolveFresh now did).invocations ≤ 1 ∧
      ∀ doc, (m.resolveFresh now did).result ≠ Except.ok doc) := by
  unfold MultiResolver.resolveFresh
  split
  · right; exact ⟨rfl, by simp, fun doc h => Except.noConfusion h⟩
  · split
    · right; exact ⟨rfl, by simp, fun doc h => Except.noConfusion h⟩
    · split
      · right; exact ⟨rfl, by simp, fun doc h => Except.noConfusion h⟩
      · left; exact ⟨_, rfl⟩

/-- Any single `resolve` call invokes an underlying resolver at most once. -/
theorem resolve_invocations_le_one (m : MultiResolver) (now : Int) (did : String) :
    (m.resolve now did).invocations ≤ 1 := by
  have hfresh : (m.resolveFresh now did).invocations ≤ 1 := by
    rcases resolveFresh_spec m now did with ⟨doc, hd⟩ | ⟨_, hinv, _⟩
    · rw [hd]
    · exact hinv
  unfold MultiResolver.resolve
  cases mapLookup did m.cache with
  | none => exact hfresh
  | some dt =>
    by_cases h : now - dt.2 < m.cache_ttl
    · simp [h]
    · simpa [h] using hfresh

/-- C5 counterexample theorem: two resolutions of `did:example:123` at times
0 and 1 (within the TTL 300) invoke the underlying resolver twice. -/
theorem claim_C5_counterexample :
    (1 : Int) - 0 < mBoom.cache_ttl ∧
    (mBoom.resolve 0 "did:example:123").invocations +
      ((MultiResolver.mk mBoom.resolvers (mBoom.resolve 0 "did:example:123").cache
        mBoom.cache_ttl).resolve 1 "did:example:123").invocations = 2 := by
  constructor
  · decide
  · rfl

/-- C5 amended. (1) A fresh cache entry short-circuits `resolve`: when the
entry is younger than the TTL the cached document is returned, the cache is
untouched and no resolver is invoked. (2) When the first of two `resolve`
calls for the same DID *succeeds*, the second call within the TTL invokes the
underlying resolver at most once in total (a document resolved on a miss is
written back as `(document, now)`, so the second call hits the cache); a
*failed* resolution is not cached, which is why success is required (see the
counterexample). -/
theorem claim_C5_cache_hit :
    (∀ (m : MultiResolver) (now : Int) (did : String) (doc : Document) (ts : Int),
      mapLookup did m.cache = some (doc, ts) →
      now - ts < m.cache_ttl →
      m.resolve now did = ⟨Except.ok doc, m.cache, 0⟩) ∧
    (∀ (m : MultiResolver) (t1 t2 : Int) (did : String) (doc : Document),
      (m.resolve t1 did).result = Except.ok doc →
      t2 - t1 < m.cache_ttl →
      (m.resolve t1 did).invocations +
        ((MultiResolver.mk m.resolvers (m.resolve t1 did).cache m.cache_ttl).resolve
          t2 did).invocations ≤ 1) := by
  constructor
  · intro m now did doc ts hent httl
    rw [MultiResolver.resolve, hent]
    simp [httl]
  · intro m t1 t2 did doc hok httl
    have hfreshcase :
        (m.resolveFresh t1 did).result = Except.ok doc →
          (m.resolveFresh t1 did).invocations +
            ((MultiResolver.mk m.resolvers (m.resolveFresh t1 did).cache
              m.cache_ttl).resolve t2 did).invocations ≤ 1 := by
      intro hresok
      rcases resolveFresh_spec m t1 did with ⟨document, hd⟩ | ⟨_, _, hne⟩
      · rw [hd]
        have hdoc : document = doc := by
          rw [hd] at hresok
          exact (Except.ok.injEq _ _ ▸ hresok)
        have hsecond :
            (MultiResolver.mk m.resolvers
              (mapInsert did (document, t1) m.cache) m.cache_ttl).resolve t2 did =
            ⟨Except.ok document, mapInsert did (document, t1) m.cache, 0⟩ := by
          rw [MultiResolver.resolve]
          rw [show mapLookup did (mapInsert did (document, t1) m.cache) =
            some (document, t1) from mapLookup_mapInsert _ _ _]
          simp [httl]
        simp only [hsecond]
        exact Nat.le_refl 1
      · exact absurd hresok (hne doc)
    rw [MultiResolver.resolve] at hok ⊢
    cases hent : mapLookup did m.cache with
    | none =>
      rw [hent] at hok
      exact hfreshcase hok
    | some dt =>
      rw [hent] at hok
      by_cases hfr : t1 - dt.2 < m.cache_ttl
      · simp only [if_pos hfr] at hok ⊢
        exact Nat.le_trans
          (Nat.add_le_add_left (resolve_invocations_le_one _ t2 did) 0)
          (by simp)
      · simp only [if_neg hfr] at hok ⊢
        exact hfreshcase hok

/-- C5 witness: the amended theorem applied to a concrete resolver with a
pre-populated fresh cache entry, and to two successful back-to-back
resolutions. -/
theorem claim_C5_cache_hit_witness :
    (MultiResolver.mk [("example", exampleResolverFn)]
        [("did:example:123", (⟨"d", [], [], [], [], 0⟩, 0))] 300).resolve 10 "did:example:123" =
      ⟨Except.ok ⟨"d", [], [], [], [], 0⟩,
        [("did:example:123", (⟨"d", [], [], [], [], 0⟩, 0))], 0⟩ ∧
    (mExample.resolve 0 "did:example:123").invocations +
      ((MultiResolver.mk mExample.resolvers (mExample.resolve 0 "did:example:123").cache
        mExample.cache_ttl).resolve 7 "did:example:123").invocations ≤ 1 :=
  ⟨claim_C5_cache_hit.1
      (MultiResolver.mk [("example", exampleResolverFn)]
        [("did:example:123", (⟨"d", [], [], [], [], 0⟩, 0))] 300)
      10 "did:example:123" ⟨"d", [], [], [], [], 0⟩ 0 rfl (by decide),
    claim_C5_cache_hit.2 mExample 0 7 "did:example:123"
      ⟨"did:example:123", ["did:example:123"], [], [], [], 0⟩ rfl (by decide)⟩

/-! ## C7: Ed25519 verification error handling -/

set_option maxRecDepth 16000 in
/-- C7 counterexample. The claim states that a cryptographic mismatch yields
the `InvalidSignature` *error*. At the concrete input — a well-formed
32-byte key and 64-byte signature that does not verify — `verify_ed25519`
returns `Ok false`, not `Err(InvalidSignature)`: a mismatch is reported
through the boolean, only decode failures through the error. -/
theorem claim_C7_counterexample :
    mismatchImpl.verify () (strBytes "m") () = false ∧
    verify_ed25519 mismatchImpl "m" ones64 ones32 = Except.ok false ∧
    verify_ed25519 mismatchImpl "m" ones64 ones32 ≠
      Except.error DIDError.InvalidSignature := by
  refine ⟨rfl, rfl, ?_⟩
  intro h
  exact Except.noConfusion ((rfl :
    verify_ed25519 mismatchImpl "m" ones64 ones32 = Except.ok false).symm.trans h)

/-- C7 amended. For every Ed25519 implementation and all inputs:
any base58-decode failure of key or signature, and any dalek parse failure
of the decoded bytes, yields `Err(InvalidSignature)`; the function is total
(never a panic) and its only error value is `InvalidSignature`; it returns
`Ok true` only when the decoded signature cryptographically verifies against
the message's UTF-8 bytes — never for a signature that does not verify. A
well-formed non-verifying signature yields `Ok false` (not an error, see the
counterexample). -/
theorem claim_C7_ed25519_errors (PK SIG : Type) (impl : Ed25519Impl PK SIG)
    (message signature public_key : String) :
    ((∃ b, verify_ed25519 impl message signature public_key = Except.ok b) ∨
      verify_ed25519 impl message signature public_key =
        Except.error DIDError.InvalidSignature) ∧
    (b58decode public_key = none →
      verify_ed25519 impl message signature public_key =
        Except.error DIDError.InvalidSignature) ∧
    (b58decode signature = none →
      verify_ed25519 impl message signature public_key =
        Except.error DIDError.InvalidSignature) ∧
    (∀ pkb, b58decode public_key = some pkb →
      impl.publicKeyFromBytes pkb = none →
      verify_ed25519 impl message signature public_key =
        Except.error DIDError.InvalidSignature) ∧
    (∀ pkb sgb, b58decode public_key = some pkb →
      b58decode signature = some sgb →
      impl.signatureFromBytes sgb = none →
      verify_ed25519 impl message signature public_key =
        Except.error DIDError.InvalidSignature) ∧
    (verify_ed25519 impl message signature public_key = Except.ok true →
      ∃ pkb sgb pk sg,
        b58decode public_key = some pkb ∧ b58decode signature = some sgb ∧
        impl.publicKeyFromBytes pkb = some pk ∧
        impl.signatureFromBytes sgb = some sg ∧
        impl.verify pk (strBytes message) sg = true) := by
  refine ⟨?_, ?_, ?_, ?_, ?_, ?_⟩
  · cases hpk : b58decode public_key with
    | none => exact Or.inr (by simp [verify_ed25519, hpk])
    | some pkb =>
      cases hsg : b58decode signature with
      | none => exact Or.inr (by simp [verify_ed25519, hpk, hsg])
      | some sgb =>
        cases hpkp : impl.publicKeyFromBytes pkb with
        | none => exact Or.inr (by simp [verify_ed25519, hpk, hsg, hpkp])
        | some pk =>
          cases hsgp : impl.signatureFromBytes sgb with
          | none => exact Or.inr (by simp [verify_ed25519, hpk, hsg, hpkp, hsgp])
          | some sg =>
            exact Or.inl ⟨impl.verify pk (strBytes message) sg,
              by simp [verify_ed25519, hpk, hsg, hpkp, hsgp]⟩
  · intro hpk
    simp [verify_ed25519, hpk]
  · intro hsg
    cases hpk : b58decode public_key with
    | none => simp [verify_ed25519, hpk]
    | some pkb => simp [verify_ed25519, hpk, hsg]
  · intro pkb hpk hpkp
    cases hsg : b58decode signature with
    | none => simp [verify_ed25519, hpk, hsg]
    | some sgb => simp [verify_ed25519, hpk, hsg, hpkp]
  · intro pkb sgb hpk hsg hsgp
    cases hpkp : impl.publicKeyFromBytes pkb with
    | none => simp [verify_ed25519, hpk, hsg, hpkp]
    | some pk => simp [verify_ed25519, hpk, hsg, hpkp, hsgp]
  · intro hok
    simp only [verify_ed25519] at hok
    cases hpk : b58decode public_key with
    | none => simp [hpk] at hok
    | some pkb =>
      simp only [hpk] at hok
      cases hsg : b58decode signature with
      | none => simp [hsg] at hok
      | some sgb =>
        simp only [hsg] at hok
        cases hpkp : impl.publicKeyFromBytes pkb with
        | none => simp [hpkp] at hok
        | some pk =>
          simp only [hpkp] at hok
          cases hsgp : impl.signatureFromBytes sgb with
          | none => simp [hsgp] at hok
          | some sg =>
            simp only [hsgp] at hok
            refine ⟨pkb, sgb, pk, sg, rfl, rfl, hpkp, hsgp, ?_⟩
            injection hok

set_option maxRecDepth 16000 in
/-- C7 witness: the amended theorem applied at concrete inputs exercising
every branch — an invalid base58 key (`0` is outside the alphabet), an
invalid base58 signature, dalek parse failures of key and signature, and a
verifying signature. -/
theorem claim_C7_ed25519_errors_witness :
    verify_ed25519 acceptImpl "m" ones64 "0!" =
      Except.error DIDError.InvalidSignature ∧
    verify_ed25519 acceptImpl "m" "0!" ones32 =
      Except.error DIDError.InvalidSignature ∧
    verify_ed25519 noKeyImpl "m" ones64 ones32 =
      Except.error DIDError.InvalidSignature ∧
    verify_ed25519 noSigImpl "m" ones64 ones32 =
      Except.error DIDError.InvalidSignature ∧
    (∃ pkb sgb pk sg,
      b58decode ones32 = some pkb ∧ b58decode ones64 = some sgb ∧
      acceptImpl.publicKeyFromBytes pkb = some pk ∧
      acceptImpl.signatureFromBytes sgb = some sg ∧
      acceptImpl.verify pk (strBytes "m") sg = true) :=
  ⟨(claim_C7_ed25519_errors Unit Unit acceptImpl "m" ones64 "0!").2.1 (by decide),
    (claim_C7_ed25519_errors Unit Unit acceptImpl "m" "0!" ones32).2.2.1 (by decide),
    (claim_C7_ed25519_errors Unit Unit noKeyImpl "m" ones64 ones32).2.2.2.1
      (List.replicate 32 0) (by decide) rfl,
    (claim_C7_ed25519_errors Unit Unit noSigImpl "m" ones64 ones32).2.2.2.2.1
      (List.replicate 32 0) (List.replicate 64 0) (by decide) (by decide) rfl,
    (claim_C7_ed25519_errors Unit Unit acceptImpl "m" ones64 ones32).2.2.2.2.2 rfl⟩

/-! ## C3: quorum — status becomes `Active` exactly at the last signature -/

/-- `signParty` leaves the DID list unchanged. -/
theorem signParty_map_did {d s : String} {t : Int} {l l2 : List ContractParty}
    (h : signParty d s t l = some l2) :
    l2.map (fun p => p.did) = l.map (fun p => p.did) := by
  obtain ⟨l₁, p, l₃, hsplit, _, _, hl2⟩ := signParty_split h
  subst hsplit
  subst hl2
  simp

/-- One signing step moves the signing state from `S` to `d :: S`, provided
the DIDs are pairwise distinct. -/
theorem signParty_sigState {d s : String} {t : Int} {l l2 : List ContractParty}
    {S : List String} (hnd : (l.map (fun p => p.did)).Nodup)
    (h : signParty d s t l = some l2) (hst : SigState l S) :
    SigState l2 (d :: S) := by
  obtain ⟨l₁, p, l₃, hsplit, hl₁, hpd, hl2⟩ := signParty_split h
  subst hsplit
  subst hl2
  have hd3 : ∀ q ∈ l₃, q.did ≠ d := by
    intro q hq he
    rw [List.map_append, List.map_cons] at hnd
    have hmem : q.did ∈ l₃.map (fun p => p.did) := List.mem_map.mpr ⟨q, hq, rfl⟩
    have := (List.nodup_append.mp hnd).2.1
    rw [List.nodup_cons] at this
    exact this.1 (by rw [hpd, ← he]; exact hmem)
  intro q hq
  rcases List.mem_append.mp hq with hmem | hmem
  · have hne : q.did ≠ d := hl₁ q hmem
    rw [hst q (List.mem_append.mpr (Or.inl hmem))]
    simp [List.mem_cons, hne]
  · rcases List.mem_cons.mp hmem with hmem | hmem
    · subst hmem
      simp [hpd]
    · have hne : q.did ≠ d := hd3 q hmem
      rw [hst q (List.mem_append.mpr (Or.inr (List.mem_cons_of_mem _ hmem)))]
      simp [List.mem_cons, hne]

/-- Folding distinct in-contract signatures through `sign` succeeds, keeps
the DID list, accumulates the signing state, and — once at least one
signature has been recorded — leaves the status at the all-signed
recomputation of the final party list. -/
theorem signFold_spec :
    ∀ (ds : List (String × String × Int)) (c : Contract) (S : List String),
      (c.parties.map (fun p => p.did)).Nodup →
      SigState c.parties S →
      (∀ x ∈ ds, x.1 ∈ c.parties.map (fun p => p.did)) →
      ∃ c2, signFold c ds = Except.ok c2 ∧
        c2.parties.map (fun p => p.did) = c.parties.map (fun p => p.did) ∧
        SigState c2.parties (ds.map (fun x => x.1) ++ S) ∧
        (ds = [] → c2 = c) ∧
        (ds ≠ [] → c2.status =
          (if c2.parties.all (fun p => p.signature.isSome) then ContractStatus.Active
           else ContractStatus.PendingSignatures))
  | [], c, S => by
    intro hnd hst _
    exact ⟨c, rfl, rfl, by simpa using hst, fun _ => rfl, fun h => absurd rfl h⟩
  | x :: rest, c, S => by
    intro hnd hst hall
    have hx : x.1 ∈ c.parties.map (fun p => p.did) :=
      hall x (List.mem_cons_self x rest)
    have hsome : ∃ parties2, signParty x.1 x.2.1 x.2.2 c.parties = some parties2 := by
      cases hsp : signParty x.1 x.2.1 x.2.2 c.parties with
      | none =>
        obtain ⟨p, hp, hpd⟩ := List.mem_map.mp hx
        exact absurd hpd (signParty_eq_none_iff.mp hsp p hp)
      | some parties2 => exact ⟨parties2, rfl⟩
    obtain ⟨parties2, hsp⟩ := hsome
    have hsign : c.sign x.1 x.2.1 x.2.2 = Except.ok { c with
        parties := parties2
        status :=
          if parties2.all (fun p => p.signature.isSome) then ContractStatus.Active
          else ContractStatus.PendingSignatures } := by
      rw [Contract.sign, hsp]
    set cm : Contract := { c with
      parties := parties2
      status :=
        if parties2.all (fun p => p.signature.isSome) then ContractStatus.Active
        else ContractStatus.PendingSignatures } with hcm
    have hdids : cm.parties.map (fun p => p.did) = c.parties.map (fun p => p.did) :=
      signParty_map_did hsp
    have hnd2 : (cm.parties.map (fun p => p.did)).Nodup := by rw [hdids]; exact hnd
    have hst2 : SigState cm.parties (x.1 :: S) := signParty_sigState hnd hsp hst
    have hall2 : ∀ y ∈ rest, y.1 ∈ cm.parties.map (fun p => p.did) := by
      intro y hy
      rw [hdids]
      exact hall y (List.mem_cons_of_mem _ hy)
    obtain ⟨c2, hfold, hdids2, hst3, hnil, hstat⟩ :=
      signFold_spec rest cm (x.1 :: S) hnd2 hst2 hall2
    refine ⟨c2, ?_, by rw [hdids2, hdids], ?_, fun h => List.noConfusion h, ?_⟩
    · rw [signFold, hsign]
      exact hfold
    · intro p hp
      rw [hst3 p hp]
      simp only [List.map_cons, List.mem_append, List.mem_cons]
      constructor
      · intro h
        rcases h with h | h | h
        · exact Or.inl (Or.inr h)
        · exact Or.inl (Or.inl h)
        · exact Or.inr h
      · intro h
        rcases h with (h | h) | h
        · exact Or.inr (Or.inl h)
        · exact Or.inl h
        · exact Or.inr (Or.inr h)
    · intro _
      cases hrest : rest with
      | nil =>
        have hc2 : c2 = cm := hnil hrest
        subst hc2
        rw [hcm]
      | cons y ys =>
        exact hstat (by simp [hrest])

/-- Every party list splits into the three role classes. -/
theorem length_eq_sum_roleCounts (l : List ContractParty) :
    l.length = (l.filter (fun p => decide (p.role = PartyRole.DataProvider))).length
      + (l.filter (fun p => decide (p.role = PartyRole.DataConsumer))).length
      + (l.filter (fun p => decide (p.role = PartyRole.InfrastructureProvider))).length := by
  induction l with
  | nil => rfl
  | cons p rest ih =>
    cases hp : p.role <;> simp [List.filter_cons, hp] <;> omega

/-- C3. (1) After every successful `sign`, the status is `Active` iff every
party carries a signature, and otherwise `PendingSignatures`. (2) For a
contract with `N ≥ 1` data providers, one data consumer and one
infrastructure provider (all DIDs distinct, nobody signed yet), any sequence
of distinct in-contract signing calls succeeds, the status is
`PendingSignatures` after every proper prefix of the `N + 2` required
signatures, and `Active` exactly when all `N + 2` distinct parties have
signed. -/
theorem claim_C3_quorum :
    (∀ (c : Contract) (did sig : String) (now : Int) (c2 : Contract),
      c.sign did sig now = Except.ok c2 →
      (c2.status = ContractStatus.Active ↔
        ∀ p ∈ c2.parties, p.signature.isSome = true) ∧
      (c2.status = ContractStatus.Active ∨
        c2.status = ContractStatus.PendingSignatures)) ∧
    (∀ (c : Contract) (N : Nat) (ds : List (String × String × Int)),
      roleCount c PartyRole.DataProvider = N →
      roleCount c PartyRole.DataConsumer = 1 →
      roleCount c PartyRole.InfrastructureProvider = 1 →
      1 ≤ N →
      (c.parties.map (fun p => p.did)).Nodup →
      (∀ p ∈ c.parties, p.signature = none) →
      (ds.map (fun x => x.1)).Nodup →
      (∀ x ∈ ds, x.1 ∈ c.parties.map (fun p => p.did)) →
      ∃ c2, signFold c ds = Except.ok c2 ∧
        (ds.length = N + 2 → c2.status = ContractStatus.Active) ∧
        (1 ≤ ds.length → ds.length < N + 2 →
          c2.status = ContractStatus.PendingSignatures)) := by
  constructor
  · intro c did sig now c2 hsign
    unfold Contract.sign at hsign
    cases hsp : signParty did sig now c.parties with
    | none => rw [hsp] at hsign; exact Except.noConfusion hsign
    | some parties =>
      rw [hsp] at hsign
      injection hsign with hsign
      subst hsign
      by_cases hallp : parties.all (fun p => p.signature.isSome) = true
      · have hstatus : ({ c with
            parties := parties
            status :=
              if parties.all (fun p => p.signature.isSome) then ContractStatus.Active
              else ContractStatus.PendingSignatures } : Contract).status =
            ContractStatus.Active := by
          simp only [if_pos hallp]
        refine ⟨⟨fun _ p hp => ?_, fun _ => hstatus⟩, Or.inl hstatus⟩
        simpa using List.all_eq_true.mp hallp p hp
      · have hstatus : ({ c with
            parties := parties
            status :=
              if parties.all (fun p => p.signature.isSome) then ContractStatus.Active
              else ContractStatus.PendingSignatures } : Contract).status =
            ContractStatus.PendingSignatures := by
          simp only [if_neg hallp]
        refine ⟨⟨fun h => ?_, fun h => ?_⟩, Or.inr hstatus⟩
        · rw [hstatus] at h
          exact ContractStatus.noConfusion h
        · exact absurd (List.all_eq_true.mpr (fun p hp => by simpa using h p hp)) hallp
  · intro c N ds hdp hdc hip hN hnd hunsigned hdsnd hall
    have hlen : c.parties.length = N + 2 := by
      have := length_eq_sum_roleCounts c.parties
      rw [show (List.filter (fun p => decide (p.role = PartyRole.DataProvider))
          c.parties).length = N from hdp,
        show (List.filter (fun p => decide (p.role = PartyRole.DataConsumer))
          c.parties).length = 1 from hdc,
        show (List.filter (fun p => decide (p.role = PartyRole.InfrastructureProvider))
          c.parties).length = 1 from hip] at this
      omega
    have hst0 : SigState c.parties [] := by
      intro p hp
      simp [hunsigned p hp]
    obtain ⟨c2, hfold, hdids, hst, hnil, hstat⟩ := signFold_spec ds c [] hnd hst0 hall
    have hdidslen : (c.parties.map (fun p => p.did)).length = N + 2 := by
      simpa using hlen
    have hsub : ∀ a ∈ ds.map (fun x => x.1), a ∈ c.parties.map (fun p => p.did) := by
      intro a ha
      obtain ⟨x, hx, hxa⟩ := List.mem_map.mp ha
      exact hxa ▸ hall x hx
    refine ⟨c2, hfold, ?_, ?_⟩
    · intro hk
      have hne : ds ≠ [] := by
        intro h
        rw [h] at hk
        simp at hk
      have hcov : ∀ a ∈ c.parties.map (fun p => p.did), a ∈ ds.map (fun x => x.1) := by
        have hsubF : (ds.map (fun x => x.1)).toFinset ⊆
            (c.parties.map (fun p => p.did)).toFinset := by
          intro a ha
          exact List.mem_toFinset.mpr (hsub a (List.mem_toFinset.mp ha))
        have hcard : ((c.parties.map (fun p => p.did)).toFinset).card ≤
            ((ds.map (fun x => x.1)).toFinset).card := by
          rw [List.toFinset_card_of_nodup hnd, List.toFinset_card_of_nodup hdsnd]
          simp only [List.length_map]
          omega
        have heq := Finset.eq_of_subset_of_card_le hsubF hcard
        intro a ha
        exact List.mem_toFinset.mp (heq ▸ List.mem_toFinset.mpr ha)
      have hallsig : c2.parties.all (fun p => p.signature.isSome) = true := by
        rw [List.all_eq_true]
        intro p hp
        rw [hst p hp]
        rw [List.append_nil]
        exact hcov p.did (hdids ▸ List.mem_map.mpr ⟨p, hp, rfl⟩)
      rw [hstat hne, if_pos hallsig]
    · intro hk1 hk2
      have hne : ds ≠ [] := by
        intro h
        rw [h] at hk1
        simp at hk1
      have hmiss : ∃ a ∈ c.parties.map (fun p => p.did), a ∉ ds.map (fun x => x.1) := by
        by_contra hcon
        push_neg at hcon
        have hsubF : (c.parties.map (fun p => p.did)).toFinset ⊆
            (ds.map (fun x => x.1)).toFinset := by
          intro a ha
          exact List.mem_toFinset.mpr (hcon a (List.mem_toFinset.mp ha))
        have hcard := Finset.card_le_card hsubF
        rw [List.toFinset_card_of_nodup hnd, List.toFinset_card_of_nodup hdsnd] at hcard
        simp only [List.length_map] at hcard
        omega
      obtain ⟨a, ha, hnotin⟩ := hmiss
      obtain ⟨p, hp, hpa⟩ := List.mem_map.mp (hdids ▸ ha)
      have hpnot : p.signature.isSome = false := by
        rw [Bool.eq_false_iff]
        intro hcontra
        have := (hst p hp).mp hcontra
        rw [List.append_nil] at this
        exact hnotin (hpa ▸ this)
      have hallsig : c2.parties.all (fun p => p.signature.isSome) = false := by
        rw [Bool.eq_false_iff]
        intro hcontra
        have := List.all_eq_true.mp hcontra p hp
        rw [this] at hpnot
        exact Bool.noConfusion hpnot
      rw [hstat hne, if_neg (by rw [hallsig]; exact Bool.false_ne_true)]

/-- C3 witness: the quorum theorem applied to the one successful sign on
`c2base` and to the concrete three-party signing flow (`N = 1`). -/
theorem claim_C3_quorum_witness :
    ((c2signed1.status = ContractStatus.Active ↔
        ∀ p ∈ c2signed1.parties, p.signature.isSome = true) ∧
      (c2signed1.status = ContractStatus.Active ∨
        c2signed1.status = ContractStatus.PendingSignatures)) ∧
    (∃ c2, signFold c3base ds3 = Except.ok c2 ∧
      (ds3.length = 1 + 2 → c2.status = ContractStatus.Active) ∧
      (1 ≤ ds3.length → ds3.length < 1 + 2 →
        c2.status = ContractStatus.PendingSignatures)) :=
  ⟨claim_C3_quorum.1 c2base "did:example:p" "sig1" 1 c2signed1 (by decide),
    claim_C3_quorum.2 c3base 1 ds3 (by decide) (by decide) (by decide) (by decide)
      (by decide) (by decide) (by decide) (by decide)⟩

end CMS
